import Mathlib

/-!
Verification development for the cgat repository: a shallow embedding of
the spike-in generation control flow of `src/scripts/counts2counts.py`
(the `spike` branch of `main`) and of `getConvertedTable` from
`src/CGAT/CSV.py`, together with theorems settling the specification
claims about them.  Helper functions that live in `CGAT/Counts.py` (not
part of the sources) are modelled from the specification and marked as
such in their doc comments.
-/

namespace CGAT

deriving instance DecidableEq for Except

/-- A table cell as the Python code of CSV.py sees it: either a raw value,
carrying the rational that float() would parse it to (`none` when float()
would raise ValueError), or an already-converted float. -/
inductive Cell where
  | raw : Option ℚ → Cell
  | num : ℚ → Cell
deriving DecidableEq

/-- Python float(cell): a numeric cell converts to itself; a raw cell
converts exactly when it parses. -/
def pyFloat : Cell → Option ℚ
  | Cell.raw o => o
  | Cell.num q => some q

/-- The inner loop of getConvertedTable (CSV.py lines 302-310):
for c in columns, row[c] = float(row[c]); the Bool records whether a
ValueError was hit (the loop breaks there, leaving the row partially
converted in place). -/
def convertCells : List Cell → List Nat → List Cell × Bool
  | row, [] => (row, false)
  | row, c :: cs =>
    match pyFloat (row.getD c (Cell.raw none)) with
    | some q => convertCells (row.set c (Cell.num q)) cs
    | none => (row, true)

/-- getConvertedTable (src/CGAT/CSV.py lines 295-316).  Rows are
mutated in place while converting; on a ValueError the function raises
when skip_errors is false and otherwise drops the row from the returned
table.  The embedding returns both the final state of the input rows
(the in-place mutations) and the new table. -/
def getConvertedTable :
    List (List Cell) → List Nat → Bool →
      Except String (List (List Cell) × List (List Cell))
  | [], _, _ => Except.ok ([], [])
  | row :: rest, columns, skip_errors =>
    match convertCells row columns with
    | (row2, true) =>
      if skip_errors then
        match getConvertedTable rest columns skip_errors with
        | Except.ok (mt, nt) => Except.ok (row2 :: mt, nt)
        | Except.error e => Except.error e
      else Except.error "could not convert value"
    | (row2, false) =>
      match getConvertedTable rest columns skip_errors with
      | Except.ok (mt, nt) => Except.ok (row2 :: mt, row2 :: nt)
      | Except.error e => Except.error e

/-- The spike-in mode of the run (option spike-type, counts2counts.py). -/
inductive SpikeType where
  | row
  | cluster
deriving DecidableEq

/-- The output mode of the run (option spike-output-method; the source
spells the second choice "seperate"). -/
inductive OutputMethod where
  | append
  | seperate
deriving DecidableEq

/-- The difference statistic (option difference-method). -/
inductive Difference where
  | relative
  | logfold
deriving DecidableEq

/-- The options of the spike branch of counts2counts.py main, after
command-line parsing (lines 327-354 give the defaults). -/
structure Options where
  spike_type : SpikeType
  output_method : OutputMethod
  difference : Difference
  id_column : Option (List String)
  min_spike : Option Int
  max_spike : Int
  min_cbin : ℚ
  max_cbin : ℚ
  width_cbin : ℚ
  min_ibin : ℚ
  max_ibin : ℚ
  width_ibin : ℚ
  min_sbin : Int
  max_sbin : Int
  width_sbin : Int
  iterations : Int
  cluster_max_distance : Int
  cluster_min_size : Int
deriving DecidableEq

/-- The ways a spike run can abort.  Failed configuration asserts in the
source raise AssertionError; the spec taxonomy names them
ConfigurationError.  np.arange with a zero step raises ZeroDivisionError.
The raise at counts2counts.py line 488 is the condition the spec names
NoClustersFoundError, and the assert at line 508 is the condition the
spec names InsufficientSpikesError. -/
inductive SpikeError where
  | configurationError : String → SpikeError
  | zeroDivisionError : SpikeError
  | noClustersFound : String → SpikeError
  | insufficientSpikes : String → SpikeError
deriving DecidableEq

/-- Observable milestones of a run, used to state that a failure happens
before candidate generation (shuffling) or before output. -/
inductive Event where
  | shuffle
  | output
deriving DecidableEq

/-- A row of the experimental design table.  The source's column
"include" is called includeFlag here ("include" is reserved in Lean). -/
structure DesignRow where
  track : String
  includeFlag : Int
  group : String
  pair : Int
deriving DecidableEq

/-- A bin key: (initial-bin index, change-bin index) in row mode, plus a
subcluster-size-bin index in cluster mode. -/
structure BinKey where
  ibin : Nat
  cbin : Nat
  sbin : Option Nat
deriving DecidableEq

/-- A locus of the counts table as the cluster finder sees it: its
contig and position. -/
structure LocusRow where
  contig : String
  position : Int
deriving DecidableEq

/-- The outcome of a successful spike run, as far as the claims are
concerned: the retained bins, the effective id columns, the restricted
design table and the two bin boundary sequences. -/
structure SpikeOut where
  filled_bins : List BinKey
  id_column : Option (List String)
  design : List DesignRow
  change_bins : List ℚ
  initial_bins : List ℚ
deriving DecidableEq

/-- Python truthiness of the id_column option: None and the empty list
are falsy (counts2counts.py line 446, `if not options.id_column`). -/
def pyFalsyList : Option (List String) → Bool
  | none => true
  | some [] => true
  | some (_ :: _) => false

/-- The id-column configuration check (counts2counts.py lines 446-452):
with a falsy id_column, append mode asserts that the spike type is not
"row"; any other output method guesses the id column ["spike"]. -/
def effIdColumn (o : Options) : Except SpikeError (Option (List String)) :=
  if pyFalsyList o.id_column then
    if o.output_method = OutputMethod.append then
      if o.spike_type = SpikeType.row then
        Except.error
          (SpikeError.configurationError
            "id column must be specified to append rows")
      else Except.ok o.id_column
    else Except.ok (some ["spike"])
  else Except.ok o.id_column

/-- The minimum-spike default (counts2counts.py lines 454-456):
`if not options.min_spike` is Python truthiness, so both an unset value
and a configured 0 fall back to max_spike. -/
def effMinSpike (o : Options) : Int :=
  match o.min_spike with
  | none => o.max_spike
  | some m => if m = 0 then o.max_spike else m

/-- The design load of the suffix path (counts2counts.py line 392):
rows with include equal to 0 are dropped. -/
def loadDesignKeepSuffix (d : List DesignRow) : List DesignRow :=
  d.filter (fun r => r.includeFlag ≠ 0)

/-- The restriction of the design to the first pair
(counts2counts.py line 459). -/
def restrictToFirstPair (d : List DesignRow) : List DesignRow :=
  d.filter (fun r => r.pair = 1)

/-- The design rows that reach group mapping in a spike run: the load
filter followed by the first-pair restriction. -/
def participatingRows (d : List DesignRow) : List DesignRow :=
  restrictToFirstPair (loadDesignKeepSuffix d)

/-- Modelled from the spec: `Counts.mapGroups` is not under src/.
Section 4.2 of the spec: the group mapper returns every distinct
group-id of the restricted design and fails with ConfigurationError if
fewer than two groups are present. -/
def mapGroups (d : List DesignRow) : Except SpikeError (List String) :=
  if ((d.map DesignRow.group).dedup).length < 2 then
    Except.error (SpikeError.configurationError "fewer than two groups")
  else Except.ok ((d.map DesignRow.group).dedup)

/-- np.arange(start, stop, step) over rationals: a step of zero raises
ZeroDivisionError; otherwise the result has
max 0 (ceil ((stop - start) / step)) elements start, start + step, ... -/
def npArange (start stop step : ℚ) : Except SpikeError (List ℚ) :=
  if step = 0 then Except.error SpikeError.zeroDivisionError
  else
    Except.ok ((List.range ⌈(stop - start) / step⌉.toNat).map
      (fun i : ℕ => start + (i : ℚ) * step))

/-- The bin construction of the spike branch (counts2counts.py lines
472-476): change bins first, then initial bins. -/
def makeBins (o : Options) : Except SpikeError (List ℚ × List ℚ) :=
  match npArange o.min_cbin o.max_cbin o.width_cbin with
  | Except.error e => Except.error e
  | Except.ok cb =>
    match npArange o.min_ibin o.max_ibin o.width_ibin with
    | Except.error e => Except.error e
    | Except.ok ib => Except.ok (cb, ib)

/-- The cluster-mode configuration checks (counts2counts.py lines
432-441): the subcluster maximum size must not exceed the cluster
minimum size, and the counts table must have contig and position
columns. -/
def clusterChecks (o : Options) (counts_columns : List String) :
    Except SpikeError Unit :=
  if o.spike_type = SpikeType.cluster then
    if o.max_sbin ≤ o.cluster_min_size then
      if "contig" ∈ counts_columns ∧ "position" ∈ counts_columns then
        Except.ok ()
      else
        Except.error
          (SpikeError.configurationError
            "cluster analysis requires columns named contig and position")
    else
      Except.error
        (SpikeError.configurationError
          "max size of subcluster is greater than min size of cluster")
  else Except.ok ()

/-- Modelled from the spec: `Counts.findClusters` is not under src/.
Section 4.3: scan the sorted rows, breaking a run whenever the contig
changes or the position gap exceeds the maximum distance.  This helper
accumulates the current run (reversed) and emits runs at the breaks. -/
def runsAux (maxd : Int) : LocusRow → List LocusRow → List LocusRow →
    List (List LocusRow)
  | _, cur, [] => [cur.reverse]
  | prev, cur, r :: rs =>
    if r.contig = prev.contig ∧ r.position - prev.position ≤ maxd then
      runsAux maxd r (r :: cur) rs
    else
      cur.reverse :: runsAux maxd r [r] rs

/-- Modelled from the spec: the maximal adjacent runs of the sorted
locus list. -/
def clusterRuns (maxd : Int) : List LocusRow → List (List LocusRow)
  | [] => []
  | r :: rs => runsAux maxd r [r] rs

/-- Modelled from the spec: `Counts.findClusters` is not under src/.
Section 4.3: only runs with at least cluster_min_size members are
emitted as clusters. -/
def findClusters (maxd minsize : Int) (rows : List LocusRow) :
    List (List LocusRow) :=
  (clusterRuns maxd rows).filter (fun c => minsize ≤ (c.length : Int))

/-- The cluster discovery phase of the spike branch (counts2counts.py
lines 482-488): in cluster mode, an empty cluster dictionary raises the
condition the spec names NoClustersFoundError. -/
def clusterPhase (o : Options) (loci : List LocusRow) :
    Except SpikeError Unit :=
  if o.spike_type = SpikeType.cluster then
    if findClusters o.cluster_max_distance o.cluster_min_size loci = [] then
      Except.error
        (SpikeError.noClustersFound "no clusters were found, check parameters")
    else Except.ok ()
  else Except.ok ()

/-- Modelled from the spec: `Counts.thresholdBins` is not under src/.
Section 4.6: threshold(min_spike) returns only the BinKeys whose
accepted count is at least min_spike.  The accumulator is given as a
list of (key, accepted count) pairs. -/
def thresholdBins (acc : List (BinKey × Nat)) (minSpike : Int) :
    List BinKey :=
  (acc.filter (fun p => minSpike ≤ (p.2 : Int))).map Prod.fst

/-- The spike branch of counts2counts.py main (lines 429-517) as one
staged function.  The random shuffling itself lives in Counts.py (not
under src/); its result, the per-bin accumulator after all iterations,
is taken as the input `acc`.  The returned event list records whether
candidate generation (shuffle) and output were reached. -/
def spikeMain (o : Options) (counts_columns : List String)
    (loci : List LocusRow) (design : List DesignRow)
    (acc : List (BinKey × Nat)) :
    Except SpikeError SpikeOut × List Event :=
  match clusterChecks o counts_columns with
  | Except.error e => (Except.error e, [])
  | Except.ok _ =>
    match effIdColumn o with
    | Except.error e => (Except.error e, [])
    | Except.ok idcol =>
      match mapGroups (restrictToFirstPair design) with
      | Except.error e => (Except.error e, [])
      | Except.ok _ =>
        match makeBins o with
        | Except.error e => (Except.error e, [])
        | Except.ok bins =>
          match clusterPhase o loci with
          | Except.error e => (Except.error e, [])
          | Except.ok _ =>
            if thresholdBins acc (effMinSpike o) = [] then
              (Except.error
                (SpikeError.insufficientSpikes
                  "No bins contained enough spike-ins"),
               [Event.shuffle])
            else
              (Except.ok
                ⟨thresholdBins acc (effMinSpike o), idcol,
                 restrictToFirstPair design, bins.1, bins.2⟩,
               [Event.shuffle, Event.output])

/-- Modelled from the spec: the bin space of `Counts.py` is not under
src/.  Section 4.1: a BinSpace is constructed from a (min, max, width)
triple. -/
structure BinSpace where
  minV : ℚ
  maxV : ℚ
  width : ℚ
deriving DecidableEq

/-- Modelled from the spec: the number of bins, matching the length of
np.arange(min, max, width) for a positive width. -/
def BinSpace.nbins (b : BinSpace) : Nat :=
  ⌈(b.maxV - b.minV) / b.width⌉.toNat

/-- Modelled from the spec: classify(value) maps a value to the index of
the bin whose half-open interval contains it, clamping out-of-range
values to the first and last bin (spec section 4.1: never errors,
silently saturates). -/
def BinSpace.classify (b : BinSpace) (v : ℚ) : Nat :=
  min (b.nbins - 1) ⌊(v - b.minV) / b.width⌋.toNat

/-- The script defaults for the spike options (counts2counts.py lines
327-354), in row mode with separate output; used as a concrete
configuration by the witnesses. -/
def optRowDefaults : Options where
  spike_type := SpikeType.row
  output_method := OutputMethod.seperate
  difference := Difference.logfold
  id_column := none
  min_spike := none
  max_spike := 100
  min_cbin := 0
  max_cbin := 100
  width_cbin := 100
  min_ibin := 0
  max_ibin := 100
  width_ibin := 100
  min_sbin := 1
  max_sbin := 1
  width_sbin := 1
  iterations := 1
  cluster_max_distance := 100
  cluster_min_size := 10

/-- A concrete design with one included track in each of two groups,
both in the first pair; used by the witnesses. -/
def designTwoGroups : List DesignRow :=
  [⟨"track1", 1, "groupA", 1⟩, ⟨"track2", 1, "groupB", 1⟩]

/-- The defaults with a negative change-bin width and a configured
minimum of one spike; used to show a negative width is accepted. -/
def optNegWidth : Options :=
  { optRowDefaults with width_cbin := -1, min_spike := some 1 }

/-! Lemmas about getConvertedTable. -/

/-- Unfolding step of the conversion loop: a convertible head column. -/
lemma convertCells_cons_some (row : List Cell) (c : Nat) (cs : List Nat)
    (q : ℚ) (h : pyFloat (row.getD c (Cell.raw none)) = some q) :
    convertCells row (c :: cs)
      = convertCells (row.set c (Cell.num q)) cs := by
  simp only [convertCells]
  rw [h]

/-- Unfolding step of the conversion loop: an unconvertible head column. -/
lemma convertCells_cons_none (row : List Cell) (c : Nat) (cs : List Nat)
    (h : pyFloat (row.getD c (Cell.raw none)) = none) :
    convertCells row (c :: cs) = (row, true) := by
  simp only [convertCells]
  rw [h]

/-- Converting one cell in place does not change how any cell of the row
converts: an overwritten cell keeps its float value, other cells are
untouched. -/
lemma pyFloat_set_eq (row : List Cell) (c c' : Nat) (q : ℚ)
    (h : pyFloat (row.getD c (Cell.raw none)) = some q) :
    pyFloat ((row.set c (Cell.num q)).getD c' (Cell.raw none))
      = pyFloat (row.getD c' (Cell.raw none)) := by
  have hc : c < row.length := by
    by_contra hlen
    push_neg at hlen
    rw [List.getD_eq_getElem?_getD, List.getElem?_eq_none hlen] at h
    simp [pyFloat] at h
  by_cases hcc : c' = c
  · subst hcc
    rw [List.getD_eq_getElem?_getD,
      List.getElem?_set_self (by simpa using hc)]
    rw [h]
    rfl
  · rw [List.getD_eq_getElem?_getD,
      List.getElem?_set_ne (fun he => hcc he.symm),
      ← List.getD_eq_getElem?_getD]

/-- The in-place conversion loop never changes the float value of any
cell of the row (it only replaces convertible cells by their floats). -/
lemma convertCells_pyFloat_eq (cs : List Nat) (row : List Cell) (c' : Nat) :
    pyFloat ((convertCells row cs).1.getD c' (Cell.raw none))
      = pyFloat (row.getD c' (Cell.raw none)) := by
  induction cs generalizing row with
  | nil => rfl
  | cons c cs ih =>
    cases hp : pyFloat (row.getD c (Cell.raw none)) with
    | none => rw [convertCells_cons_none row c cs hp]
    | some q =>
      rw [convertCells_cons_some row c cs q hp, ih]
      exact pyFloat_set_eq row c c' q hp

/-- A cell already holding a converted float is never changed again by
the conversion loop. -/
lemma convertCells_preserves_num (cs : List Nat) (row : List Cell)
    (b : Nat) (q : ℚ)
    (h : row.getD b (Cell.raw none) = Cell.num q) :
    (convertCells row cs).1.getD b (Cell.raw none) = Cell.num q := by
  induction cs generalizing row with
  | nil => simpa [convertCells] using h
  | cons c cs ih =>
    cases hp : pyFloat (row.getD c (Cell.raw none)) with
    | none => rw [convertCells_cons_none row c cs hp]; exact h
    | some q' =>
      rw [convertCells_cons_some row c cs q' hp]
      apply ih
      by_cases hbc : b = c
      · subst hbc
        rw [h] at hp
        have hq : q' = q := by simpa [pyFloat] using hp.symm
        subst hq
        have hb : b < row.length := by
          by_contra hlen
          push_neg at hlen
          rw [List.getD_eq_getElem?_getD, List.getElem?_eq_none hlen] at h
          simp at h
        rw [List.getD_eq_getElem?_getD,
          List.getElem?_set_self (by simpa using hb)]
        rfl
      · rw [List.getD_eq_getElem?_getD,
          List.getElem?_set_ne (fun he => hbc he.symm),
          ← List.getD_eq_getElem?_getD]
        exact h

/-- The conversion loop reports an error exactly when some listed column
of the row fails to convert. -/
lemma convertCells_snd_iff (cs : List Nat) (row : List Cell) :
    (convertCells row cs).2 = true
      ↔ ∃ c ∈ cs, pyFloat (row.getD c (Cell.raw none)) = none := by
  induction cs generalizing row with
  | nil => simp [convertCells]
  | cons c cs ih =>
    cases hp : pyFloat (row.getD c (Cell.raw none)) with
    | none =>
      rw [convertCells_cons_none row c cs hp]
      exact iff_of_true rfl ⟨c, List.mem_cons_self c cs, hp⟩
    | some q =>
      rw [convertCells_cons_some row c cs q hp, ih]
      constructor
      · rintro ⟨c', hc', hnone⟩
        rw [pyFloat_set_eq row c c' q hp] at hnone
        exact ⟨c', List.mem_cons_of_mem _ hc', hnone⟩
      · rintro ⟨c', hc', hnone⟩
        rcases List.mem_cons.mp hc' with rfl | hc'
        · rw [hp] at hnone; exact absurd hnone (by simp)
        · exact ⟨c', hc', by
            rw [pyFloat_set_eq row c c' q hp]; exact hnone⟩

/-- When the conversion loop breaks at a bad column, the columns listed
before it have already been converted in place. -/
lemma convertCells_skip_mutates (pre : List Nat) (c : Nat)
    (post : List Nat) (row : List Cell)
    (hpre : ∀ a ∈ pre, pyFloat (row.getD a (Cell.raw none)) ≠ none)
    (hc : pyFloat (row.getD c (Cell.raw none)) = none) :
    (convertCells row (pre ++ c :: post)).2 = true
    ∧ ∀ a ∈ pre, ∀ q, pyFloat (row.getD a (Cell.raw none)) = some q →
        (convertCells row (pre ++ c :: post)).1.getD a (Cell.raw none)
          = Cell.num q := by
  induction pre generalizing row with
  | nil =>
    constructor
    · show (convertCells row (c :: post)).2 = true
      rw [convertCells_cons_none row c post hc]
    · simp
  | cons a pre ih =>
    obtain ⟨qa, hqa⟩ :
        ∃ qa, pyFloat (row.getD a (Cell.raw none)) = some qa := by
      cases hx : pyFloat (row.getD a (Cell.raw none)) with
      | none => exact absurd hx (hpre a (List.mem_cons_self a pre))
      | some q => exact ⟨q, rfl⟩
    have ha : a < row.length := by
      by_contra hlen
      push_neg at hlen
      rw [List.getD_eq_getElem?_getD, List.getElem?_eq_none hlen] at hqa
      simp [pyFloat] at hqa
    have hstep : convertCells row ((a :: pre) ++ c :: post)
        = convertCells (row.set a (Cell.num qa)) (pre ++ c :: post) := by
      show convertCells row (a :: (pre ++ c :: post)) = _
      exact convertCells_cons_some row a (pre ++ c :: post) qa hqa
    have hpre' : ∀ b ∈ pre,
        pyFloat ((row.set a (Cell.num qa)).getD b (Cell.raw none))
          ≠ none := by
      intro b hb
      rw [pyFloat_set_eq row a b qa hqa]
      exact hpre b (List.mem_cons_of_mem _ hb)
    have hc' : pyFloat ((row.set a (Cell.num qa)).getD c (Cell.raw none))
        = none := by
      rw [pyFloat_set_eq row a c qa hqa]; exact hc
    obtain ⟨hsnd, hmut⟩ := ih (row.set a (Cell.num qa)) hpre' hc'
    refine ⟨by rw [hstep]; exact hsnd, ?_⟩
    intro b hb q hq
    rw [hstep]
    rcases List.mem_cons.mp hb with rfl | hb'
    · rw [hqa] at hq
      have hqq : qa = q := by simpa using hq
      subst hqq
      apply convertCells_preserves_num
      rw [List.getD_eq_getElem?_getD,
        List.getElem?_set_self (by simpa using ha)]
      rfl
    · have hq' :
          pyFloat ((row.set a (Cell.num qa)).getD b (Cell.raw none))
            = some q := by
        rw [pyFloat_set_eq row a b qa hqa]; exact hq
      exact hmut b hb' q hq'

/-- With skip_errors set, getConvertedTable always succeeds: it returns
the in-place mutated rows and, as the new table, the converted rows that
had no conversion error. -/
lemma getConvertedTable_skip_eq (table : List (List Cell))
    (columns : List Nat) :
    getConvertedTable table columns true
      = Except.ok
          (table.map (fun row => (convertCells row columns).1),
           (table.filter (fun row => !(convertCells row columns).2)).map
             (fun row => (convertCells row columns).1)) := by
  induction table with
  | nil => rfl
  | cons row rest ih =>
    cases hcv : convertCells row columns with
    | mk row2 b =>
      cases b
      · simp [getConvertedTable, hcv, ih, List.filter_cons]
      · simp [getConvertedTable, hcv, ih, List.filter_cons]

/-- Without skip_errors, getConvertedTable raises exactly when some row
has a conversion error. -/
lemma getConvertedTable_strict_error (table : List (List Cell))
    (columns : List Nat) :
    (∃ e, getConvertedTable table columns false = Except.error e)
      ↔ ∃ row ∈ table, (convertCells row columns).2 = true := by
  induction table with
  | nil => simp [getConvertedTable]
  | cons row rest ih =>
    cases hcv : convertCells row columns with
    | mk row2 b =>
      cases b
      · cases hrest : getConvertedTable rest columns false with
        | error e =>
          simp only [getConvertedTable, hcv, hrest]
          constructor
          · intro _
            obtain ⟨r, hr, hbr⟩ := ih.mp ⟨e, hrest⟩
            exact ⟨r, List.mem_cons_of_mem _ hr, hbr⟩
          · intro _
            exact ⟨e, rfl⟩
        | ok p =>
          simp only [getConvertedTable, hcv, hrest]
          constructor
          · rintro ⟨e, he⟩
            cases he
          · rintro ⟨r, hr, hbr⟩
            rcases List.mem_cons.mp hr with rfl | hr'
            · rw [hcv] at hbr
              cases hbr
            · obtain ⟨e, he⟩ := ih.mpr ⟨r, hr', hbr⟩
              rw [he] at hrest
              cases hrest
      · simp only [getConvertedTable, hcv]
        exact iff_of_true ⟨"could not convert value", rfl⟩
          ⟨row, List.mem_cons_self row rest, by rw [hcv]⟩

/-- C10: getConvertedTable raises a ValueError on a value that is not
convertible to float exactly when skip_errors is false; with skip_errors
set, every offending row is excluded from the returned table, but the
columns of such a row that were converted before the failing column
remain mutated in place in the input rows (the skip is not atomic). -/
theorem getConvertedTable_error_policy (table : List (List Cell))
    (columns : List Nat)
    (hb : ∀ row ∈ table, ∀ c ∈ columns, c < row.length) :
    (∀ se : Bool,
      (∃ e, getConvertedTable table columns se = Except.error e)
        ↔ (se = false ∧ ∃ row ∈ table, ∃ c ∈ columns,
            pyFloat (row.getD c (Cell.raw none)) = none))
    ∧ ∀ mt nt, getConvertedTable table columns true = Except.ok (mt, nt) →
        (nt = (table.filter
            (fun row => !(convertCells row columns).2)).map
            (fun row => (convertCells row columns).1))
        ∧ (∀ row ∈ nt, ∀ c ∈ columns,
            pyFloat (row.getD c (Cell.raw none)) ≠ none)
        ∧ mt = table.map (fun row => (convertCells row columns).1)
        ∧ (∀ i pre c post, columns = pre ++ c :: post →
            (∀ a ∈ pre,
              pyFloat ((table.getD i []).getD a (Cell.raw none)) ≠ none) →
            pyFloat ((table.getD i []).getD c (Cell.raw none)) = none →
            ∀ a ∈ pre, ∀ q,
              pyFloat ((table.getD i []).getD a (Cell.raw none)) = some q →
              (mt.getD i []).getD a (Cell.raw none) = Cell.num q) := by
  constructor
  · intro se
    cases se
    · simp only [eq_self_iff_true, true_and]
      rw [getConvertedTable_strict_error]
      constructor
      · rintro ⟨row, hrow, hsnd⟩
        obtain ⟨c, hc, hnone⟩ := (convertCells_snd_iff columns row).mp hsnd
        exact ⟨row, hrow, c, hc, hnone⟩
      · rintro ⟨row, hrow, c, hc, hnone⟩
        exact ⟨row, hrow,
          (convertCells_snd_iff columns row).mpr ⟨c, hc, hnone⟩⟩
    · rw [getConvertedTable_skip_eq]
      simp
  · intro mt nt hok
    rw [getConvertedTable_skip_eq] at hok
    have hpair := Except.ok.inj hok
    have hmt : mt = table.map (fun row => (convertCells row columns).1) :=
      (congrArg Prod.fst hpair).symm
    have hnt : nt = (table.filter
        (fun row => !(convertCells row columns).2)).map
        (fun row => (convertCells row columns).1) :=
      (congrArg Prod.snd hpair).symm
    refine ⟨hnt, ?_, hmt, ?_⟩
    · intro row hrow c hc
      rw [hnt] at hrow
      simp only [List.mem_map, List.mem_filter] at hrow
      obtain ⟨r, ⟨hrt, hgood⟩, rfl⟩ := hrow
      rw [convertCells_pyFloat_eq]
      intro hnone
      have hbad : (convertCells r columns).2 = true :=
        (convertCells_snd_iff columns r).mpr ⟨c, hc, hnone⟩
      rw [hbad] at hgood
      cases hgood
    · intro i pre c post hcols hpre hcbad a ha q hq
      by_cases hi : i < table.length
      · have htd : table.getD i [] = table.get ⟨i, hi⟩ := by
          rw [List.getD_eq_getElem?_getD, List.getElem?_eq_getElem hi]
          rfl
        have hmtget : mt.getD i []
            = (convertCells (table.getD i []) columns).1 := by
          rw [hmt, List.getD_eq_getElem?_getD, List.getElem?_map,
            List.getElem?_eq_getElem hi]
          rw [htd]
          rfl
        rw [hmtget, hcols]
        exact (convertCells_skip_mutates pre c post (table.getD i [])
          hpre hcbad).2 a ha q hq
      · have htab : table.getD i [] = [] := by
          rw [List.getD_eq_getElem?_getD,
            List.getElem?_eq_none (le_of_not_lt hi)]
          rfl
        rw [htab] at hq
        simp [pyFloat] at hq

/-- C10 witness: on the table [[raw 1, raw bad]] with columns [0, 1],
strict conversion raises. -/
theorem getConvertedTable_error_policy_witness :
    ∃ e, getConvertedTable [[Cell.raw (some 1), Cell.raw none]] [0, 1]
        false = Except.error e :=
  ((getConvertedTable_error_policy
      [[Cell.raw (some 1), Cell.raw none]] [0, 1] (by decide)).1
    false).mpr ⟨rfl, by decide⟩

/-! Lemmas and claim theorems about the spike branch of main. -/

/-- Every spike run either aborts before candidate generation with no
events, aborts at thresholding with an insufficient-spikes error, or
succeeds with exactly the thresholded bins. -/
lemma spikeMain_shape (o : Options) (cc : List String)
    (loci : List LocusRow) (design : List DesignRow)
    (acc : List (BinKey × Nat)) :
    (∃ e, spikeMain o cc loci design acc = (Except.error e, []))
    ∨ (spikeMain o cc loci design acc
        = (Except.error (SpikeError.insufficientSpikes
            "No bins contained enough spike-ins"), [Event.shuffle])
        ∧ thresholdBins acc (effMinSpike o) = [])
    ∨ (∃ idcol bins,
        effIdColumn o = Except.ok idcol
        ∧ makeBins o = Except.ok bins
        ∧ thresholdBins acc (effMinSpike o) ≠ []
        ∧ spikeMain o cc loci design acc
            = (Except.ok ⟨thresholdBins acc (effMinSpike o), idcol,
                restrictToFirstPair design, bins.1, bins.2⟩,
               [Event.shuffle, Event.output])) := by
  unfold spikeMain
  cases hcc : clusterChecks o cc with
  | error e => exact Or.inl ⟨e, rfl⟩
  | ok u =>
    cases hic : effIdColumn o with
    | error e => exact Or.inl ⟨e, rfl⟩
    | ok idcol =>
      cases hmg : mapGroups (restrictToFirstPair design) with
      | error e => exact Or.inl ⟨e, rfl⟩
      | ok gs =>
        cases hmb : makeBins o with
        | error e => exact Or.inl ⟨e, rfl⟩
        | ok bins =>
          cases hcp : clusterPhase o loci with
          | error e => exact Or.inl ⟨e, rfl⟩
          | ok u2 =>
            by_cases hth : thresholdBins acc (effMinSpike o) = []
            · refine Or.inr (Or.inl ⟨?_, hth⟩)
              dsimp only
              rw [if_pos hth]
            · refine Or.inr (Or.inr ⟨idcol, bins, rfl, rfl, hth, ?_⟩)
              dsimp only
              rw [if_neg hth]

/-- C1: when after all iterations no BinKey meets the minimum-population
threshold, the run halts with a reported error (the assert at
counts2counts.py line 508) and never reaches output: there is no silent
empty result. -/
theorem spike_run_never_silently_empty (o : Options) (cc : List String)
    (loci : List LocusRow) (design : List DesignRow)
    (acc : List (BinKey × Nat))
    (hemp : thresholdBins acc (effMinSpike o) = []) :
    (∃ e, (spikeMain o cc loci design acc).1 = Except.error e)
    ∧ Event.output ∉ (spikeMain o cc loci design acc).2 := by
  rcases spikeMain_shape o cc loci design acc with
    ⟨e, hsh⟩ | ⟨hsh, _⟩ | ⟨_, _, _, _, hne, _⟩
  · rw [hsh]; exact ⟨⟨e, rfl⟩, by simp⟩
  · rw [hsh]; exact ⟨⟨_, rfl⟩, by simp⟩
  · exact absurd hemp hne

/-- C1 witness: an empty accumulator under the default options makes the
run abort without output. -/
theorem spike_run_never_silently_empty_witness :
    thresholdBins [] (effMinSpike optRowDefaults) = []
    ∧ ((∃ e, (spikeMain optRowDefaults [] [] designTwoGroups []).1
          = Except.error e)
       ∧ Event.output ∉ (spikeMain optRowDefaults [] [] designTwoGroups []).2) :=
  ⟨rfl, spike_run_never_silently_empty optRowDefaults [] [] designTwoGroups
    [] rfl⟩

/-- C2: a row-mode run with append output and no configured id column is
rejected by the assert at counts2counts.py line 449, before any
candidate generation. -/
theorem row_append_without_id_rejected (o : Options) (cc : List String)
    (loci : List LocusRow) (design : List DesignRow)
    (acc : List (BinKey × Nat))
    (h1 : o.spike_type = SpikeType.row)
    (h2 : o.output_method = OutputMethod.append)
    (h3 : o.id_column = none) :
    spikeMain o cc loci design acc
      = (Except.error (SpikeError.configurationError
          "id column must be specified to append rows"), []) := by
  have hcc : clusterChecks o cc = Except.ok () := by
    simp [clusterChecks, h1]
  have hic : effIdColumn o
      = Except.error (SpikeError.configurationError
          "id column must be specified to append rows") := by
    simp [effIdColumn, pyFalsyList, h1, h2, h3]
  unfold spikeMain
  rw [hcc, hic]

/-- C2 witness: concrete row-mode append run with no id column. -/
theorem row_append_without_id_rejected_witness :
    spikeMain { optRowDefaults with output_method := OutputMethod.append }
      [] [] designTwoGroups []
      = (Except.error (SpikeError.configurationError
          "id column must be specified to append rows"), []) :=
  row_append_without_id_rejected _ [] [] designTwoGroups [] rfl rfl rfl

/-- C3: when min_spike is not configured, the effective minimum
population is max_spike, the filled bins of a successful run are the
bins thresholded at max_spike, and every retained bin has an accepted
count of at least max_spike (a completely full bin). -/
theorem min_spike_defaults_to_max_spike (o : Options)
    (h : o.min_spike = none) :
    effMinSpike o = o.max_spike
    ∧ (∀ cc loci design acc out,
        (spikeMain o cc loci design acc).1 = Except.ok out →
          out.filled_bins = thresholdBins acc o.max_spike)
    ∧ (∀ acc : List (BinKey × Nat),
        ∀ k ∈ thresholdBins acc (effMinSpike o),
          ∃ n, (k, n) ∈ acc ∧ o.max_spike ≤ (n : Int)) := by
  have he : effMinSpike o = o.max_spike := by simp [effMinSpike, h]
  refine ⟨he, ?_, ?_⟩
  · intro cc loci design acc out hout
    rcases spikeMain_shape o cc loci design acc with
      ⟨e, hsh⟩ | ⟨hsh, _⟩ | ⟨idcol, bins, _, _, _, hsh⟩
    · rw [hsh] at hout; cases hout
    · rw [hsh] at hout; cases hout
    · rw [hsh] at hout
      have hpay := Except.ok.inj hout
      rw [← hpay, ← he]
  · intro acc k hk
    simp only [thresholdBins, List.mem_map, List.mem_filter,
      decide_eq_true_eq] at hk
    obtain ⟨p, ⟨hmem, hle⟩, hfst⟩ := hk
    refine ⟨p.2, ?_, ?_⟩
    · rw [← hfst]
      exact hmem
    · rw [he] at hle
      exact hle

/-- C3 witness: with the defaults (min_spike unset, max_spike 100) the
effective threshold is 100. -/
theorem min_spike_defaults_to_max_spike_witness :
    effMinSpike optRowDefaults = optRowDefaults.max_spike :=
  (min_spike_defaults_to_max_spike optRowDefaults rfl).1

/-- C4: a cluster-mode run whose qualifying-cluster set is empty fails
with the no-clusters error of counts2counts.py line 488, with no
shuffle attempted (empty event list). -/
theorem no_clusters_aborts_run (o : Options) (cc : List String)
    (loci : List LocusRow) (design : List DesignRow)
    (acc : List (BinKey × Nat))
    (h1 : o.spike_type = SpikeType.cluster)
    (h2 : o.max_sbin ≤ o.cluster_min_size)
    (h3 : "contig" ∈ cc ∧ "position" ∈ cc)
    (hg : 2 ≤ (((restrictToFirstPair design).map DesignRow.group).dedup).length)
    (hwc : o.width_cbin ≠ 0) (hwi : o.width_ibin ≠ 0)
    (hcl : findClusters o.cluster_max_distance o.cluster_min_size loci = []) :
    spikeMain o cc loci design acc
      = (Except.error (SpikeError.noClustersFound
          "no clusters were found, check parameters"), []) := by
  have hcc : clusterChecks o cc = Except.ok () := by
    simp [clusterChecks, h1, h2, h3.1, h3.2]
  have hic : ∃ idcol, effIdColumn o = Except.ok idcol := by
    unfold effIdColumn
    by_cases hf : pyFalsyList o.id_column = true
    · simp only [hf, if_true]
      by_cases hap : o.output_method = OutputMethod.append
      · simp only [hap, if_true]
        rw [if_neg (by simp [h1])]
        exact ⟨_, rfl⟩
      · rw [if_neg hap]
        exact ⟨_, rfl⟩
    · rw [if_neg hf]
      exact ⟨_, rfl⟩
  obtain ⟨idcol, hic⟩ := hic
  have hmg : mapGroups (restrictToFirstPair design)
      = Except.ok (((restrictToFirstPair design).map DesignRow.group).dedup) := by
    unfold mapGroups
    rw [if_neg (by omega)]
  have hmb : ∃ bins, makeBins o = Except.ok bins := by
    unfold makeBins npArange
    rw [if_neg hwc, if_neg hwi]
    exact ⟨_, rfl⟩
  obtain ⟨bins, hmb⟩ := hmb
  have hcp : clusterPhase o loci
      = Except.error (SpikeError.noClustersFound
          "no clusters were found, check parameters") := by
    simp [clusterPhase, h1, hcl]
  unfold spikeMain
  rw [hcc, hic, hmg, hmb, hcp]

/-- C4 witness: a cluster run on an empty locus table finds no clusters
and aborts. -/
theorem no_clusters_aborts_run_witness :
    spikeMain { optRowDefaults with spike_type := SpikeType.cluster }
      ["contig", "position"] [] designTwoGroups []
      = (Except.error (SpikeError.noClustersFound
          "no clusters were found, check parameters"), []) :=
  no_clusters_aborts_run _ _ [] designTwoGroups [] rfl (by decide)
    (by simp) (by decide) (by decide) (by decide) rfl

/-- C5: a cluster-mode run whose maximum subcluster size exceeds the
minimum cluster size is rejected immediately by the assert at
counts2counts.py line 435, before clustering or shuffling. -/
theorem subcluster_size_check_aborts (o : Options) (cc : List String)
    (loci : List LocusRow) (design : List DesignRow)
    (acc : List (BinKey × Nat))
    (h1 : o.spike_type = SpikeType.cluster)
    (h2 : o.cluster_min_size < o.max_sbin) :
    spikeMain o cc loci design acc
      = (Except.error (SpikeError.configurationError
          "max size of subcluster is greater than min size of cluster"),
         []) := by
  have h2' : ¬ (o.max_sbin ≤ o.cluster_min_size) := not_le.mpr h2
  have hcc : clusterChecks o cc
      = Except.error (SpikeError.configurationError
          "max size of subcluster is greater than min size of cluster") := by
    simp [clusterChecks, h1, h2']
  unfold spikeMain
  rw [hcc]

/-- C5 witness: a cluster run with subcluster maximum 20 against
cluster minimum 10 is rejected. -/
theorem subcluster_size_check_aborts_witness :
    spikeMain { optRowDefaults with
        spike_type := SpikeType.cluster, max_sbin := 20 }
      [] [] designTwoGroups []
      = (Except.error (SpikeError.configurationError
          "max size of subcluster is greater than min size of cluster"),
         []) :=
  subcluster_size_check_aborts _ [] [] designTwoGroups [] rfl (by decide)

/-- C9: a cluster-mode run with append output and no configured id
column passes the id-column check with the setting still unset, and any
successful run keeps it unset. -/
theorem cluster_append_without_id_allowed (o : Options) (cc : List String)
    (loci : List LocusRow) (design : List DesignRow)
    (acc : List (BinKey × Nat))
    (h1 : o.spike_type = SpikeType.cluster)
    (h2 : o.output_method = OutputMethod.append)
    (h3 : o.id_column = none) :
    effIdColumn o = Except.ok none
    ∧ ∀ out, (spikeMain o cc loci design acc).1 = Except.ok out →
        out.id_column = none := by
  have hid : effIdColumn o = Except.ok none := by
    simp [effIdColumn, pyFalsyList, h1, h2, h3]
  refine ⟨hid, ?_⟩
  intro out hout
  rcases spikeMain_shape o cc loci design acc with
    ⟨e, hsh⟩ | ⟨hsh, _⟩ | ⟨idcol, bins, hic, _, _, hsh⟩
  · rw [hsh] at hout; cases hout
  · rw [hsh] at hout; cases hout
  · rw [hsh] at hout
    have hpay := Except.ok.inj hout
    have hidc : idcol = none := Except.ok.inj (hic.symm.trans hid)
    rw [← hpay]
    exact hidc

/-- C9 witness: the cluster append configuration with no id column at
the defaults. -/
theorem cluster_append_without_id_allowed_witness :
    effIdColumn { optRowDefaults with
        spike_type := SpikeType.cluster,
        output_method := OutputMethod.append } = Except.ok none :=
  (cluster_append_without_id_allowed _ [] [] designTwoGroups [] rfl rfl
    rfl).1

/-- C6: classify is total (it always returns an index of the bin space)
and clamps: values below the configured minimum go to bin 0, values at
or above the configured maximum go to the last bin. -/
theorem classify_total_and_clamps (b : BinSpace) (v : ℚ)
    (hw : 0 < b.width) (hr : b.minV < b.maxV) :
    b.classify v < b.nbins
    ∧ (v < b.minV → b.classify v = 0)
    ∧ (b.maxV ≤ v → b.classify v = b.nbins - 1) := by
  have hx : (0 : ℚ) < (b.maxV - b.minV) / b.width :=
    div_pos (by linarith) hw
  have hn1 : (1 : ℤ) ≤ ⌈(b.maxV - b.minV) / b.width⌉ :=
    Int.ceil_pos.mpr hx
  refine ⟨?_, ?_, ?_⟩
  · unfold BinSpace.classify BinSpace.nbins
    omega
  · intro hv
    have hy : (v - b.minV) / b.width < 0 :=
      div_neg_of_neg_of_pos (by linarith) hw
    have hfl : ⌊(v - b.minV) / b.width⌋ < 0 :=
      Int.floor_lt.mpr (by exact_mod_cast hy)
    unfold BinSpace.classify BinSpace.nbins
    omega
  · intro hv
    have hxy : (b.maxV - b.minV) / b.width ≤ (v - b.minV) / b.width :=
      (div_le_div_iff_of_pos_right hw).mpr (by linarith)
    have h1 := Int.ceil_le_floor_add_one ((b.maxV - b.minV) / b.width)
    have h2 := Int.floor_mono hxy
    unfold BinSpace.classify BinSpace.nbins
    omega

/-- C6 witness: the space of ten width-10 bins over [0, 100) classifies
the out-of-range value 150 into the last bin. -/
theorem classify_total_and_clamps_witness :
    ((0 : ℚ) < 10 ∧ (0 : ℚ) < 100)
    ∧ ((BinSpace.mk 0 100 10).classify 150 < (BinSpace.mk 0 100 10).nbins
       ∧ ((150 : ℚ) < 0 → (BinSpace.mk 0 100 10).classify 150 = 0)
       ∧ ((100 : ℚ) ≤ 150 →
            (BinSpace.mk 0 100 10).classify 150
              = (BinSpace.mk 0 100 10).nbins - 1)) :=
  ⟨⟨by norm_num, by norm_num⟩,
   classify_total_and_clamps (BinSpace.mk 0 100 10) 150 (by norm_num)
     (by norm_num)⟩

/-- C7 counterexample: a run configured with the negative change-bin
width -1 passes configuration and bin construction without any error
(np.arange just returns an empty array), refuting the claim that every
zero-or-negative width fails with a ConfigurationError at configuration
time. -/
theorem negative_width_accepted :
    optNegWidth.width_cbin < 0
    ∧ (spikeMain optNegWidth [] [] designTwoGroups
        [(⟨0, 0, none⟩, 5)]).1
      = Except.ok
          ⟨[⟨0, 0, none⟩], some ["spike"], designTwoGroups, [],
           [0]⟩ := by
  constructor
  · show (-1 : ℚ) < 0
    norm_num
  · have hcc : clusterChecks optNegWidth [] = Except.ok () := by decide
    have hic : effIdColumn optNegWidth = Except.ok (some ["spike"]) := by
      decide
    have hmg : mapGroups (restrictToFirstPair designTwoGroups)
        = Except.ok ["groupA", "groupB"] := by decide
    have hcb : npArange optNegWidth.min_cbin optNegWidth.max_cbin
        optNegWidth.width_cbin = Except.ok [] := by
      have e1 : optNegWidth.min_cbin = 0 := rfl
      have e2 : optNegWidth.max_cbin = 100 := rfl
      have e3 : optNegWidth.width_cbin = -1 := rfl
      rw [e1, e2, e3]
      unfold npArange
      rw [if_neg (by norm_num)]
      have hce : ⌈((100 : ℚ) - 0) / (-1)⌉ = -100 := by norm_num; norm_cast
      rw [hce]
      rfl
    have hib : npArange optNegWidth.min_ibin optNegWidth.max_ibin
        optNegWidth.width_ibin = Except.ok [0] := by
      have e1 : optNegWidth.min_ibin = 0 := rfl
      have e2 : optNegWidth.max_ibin = 100 := rfl
      have e3 : optNegWidth.width_ibin = 100 := rfl
      rw [e1, e2, e3]
      unfold npArange
      rw [if_neg (by norm_num)]
      have hce : ⌈((100 : ℚ) - 0) / 100⌉ = 1 := by norm_num
      rw [hce]
      have ht1 : (1 : ℤ).toNat = 1 := rfl
      have hr1 : List.range 1 = [0] := rfl
      rw [ht1, hr1]
      simp
    have hmb : makeBins optNegWidth = Except.ok ([], [0]) := by
      unfold makeBins
      rw [hcb, hib]
    have hcp : clusterPhase optNegWidth [] = Except.ok () := by decide
    have hth : thresholdBins [((⟨0, 0, none⟩ : BinKey), 5)]
        (effMinSpike optNegWidth) = [⟨0, 0, none⟩] := by decide
    unfold spikeMain
    rw [hcc, hic, hmg, hmb, hcp]
    dsimp only
    rw [if_neg (by rw [hth]; simp), hth]
    have hrd : restrictToFirstPair designTwoGroups = designTwoGroups := rfl
    rw [hrd]

/-- C7 (amended): a zero bin width (for the change dimension, or for the
initial dimension when the change width is nonzero) makes the run abort
during bin construction with the ZeroDivisionError of np.arange — not a
ConfigurationError — while any negative width is accepted by np.arange
without error. -/
theorem zero_width_zero_division (o : Options) (cc : List String)
    (loci : List LocusRow) (design : List DesignRow)
    (acc : List (BinKey × Nat))
    (hrow : o.spike_type = SpikeType.row)
    (hid : o.output_method = OutputMethod.append →
      pyFalsyList o.id_column = false)
    (hg : 2 ≤ (((restrictToFirstPair design).map DesignRow.group).dedup).length)
    (hw : o.width_cbin = 0 ∨ (o.width_cbin ≠ 0 ∧ o.width_ibin = 0)) :
    spikeMain o cc loci design acc
      = (Except.error SpikeError.zeroDivisionError, [])
    ∧ ∀ s t w : ℚ, w < 0 → ∃ l, npArange s t w = Except.ok l := by
  constructor
  · have hcc : clusterChecks o cc = Except.ok () := by
      simp [clusterChecks, hrow]
    have hic : ∃ idcol, effIdColumn o = Except.ok idcol := by
      unfold effIdColumn
      by_cases hf : pyFalsyList o.id_column = true
      · simp only [hf, if_true]
        by_cases hap : o.output_method = OutputMethod.append
        · rw [hid hap] at hf
          cases hf
        · rw [if_neg hap]
          exact ⟨_, rfl⟩
      · rw [if_neg hf]
        exact ⟨_, rfl⟩
    obtain ⟨idcol, hic⟩ := hic
    have hmg : mapGroups (restrictToFirstPair design)
        = Except.ok (((restrictToFirstPair design).map DesignRow.group).dedup) := by
      unfold mapGroups
      rw [if_neg (by omega)]
    have hmb : makeBins o = Except.error SpikeError.zeroDivisionError := by
      rcases hw with hw0 | ⟨hwc, hwi⟩
      · unfold makeBins npArange
        rw [if_pos hw0]
      · unfold makeBins npArange
        rw [if_neg hwc, if_pos hwi]
    unfold spikeMain
    rw [hcc, hic, hmg, hmb]
  · intro s t w hneg
    unfold npArange
    rw [if_neg (ne_of_lt hneg)]
    exact ⟨_, rfl⟩

/-- C7 witness: a zero change-bin width at the defaults aborts with the
division error. -/
theorem zero_width_zero_division_witness :
    spikeMain { optRowDefaults with width_cbin := 0 } [] []
        designTwoGroups []
      = (Except.error SpikeError.zeroDivisionError, []) :=
  (zero_width_zero_division _ [] [] designTwoGroups [] rfl (by decide)
    (by decide) (Or.inl rfl)).1

/-- C8 counterexample: a design row with include = 2 and pair = 1 is
retained by the load filter (counts2counts.py line 392 keeps every
include different from 0) and by the pair restriction, so a row without
include = 1 participates, refuting the claim that exactly the rows with
include = 1 and pair = 1 participate. -/
theorem include_two_participates :
    DesignRow.mk "trackX" 2 "groupA" 1
        ∈ participatingRows [DesignRow.mk "trackX" 2 "groupA" 1]
    ∧ (DesignRow.mk "trackX" 2 "groupA" 1).includeFlag ≠ 1 := by
  decide

/-- C8 (amended): a design row participates in spike generation exactly
when its include flag is nonzero and its pair is 1: rows with include 0
or another pair are excluded before group mapping, and every row with
nonzero include (in particular include = 1) and pair = 1 is retained. -/
theorem participation_iff (d : List DesignRow) (r : DesignRow) :
    r ∈ participatingRows d
      ↔ r ∈ d ∧ r.includeFlag ≠ 0 ∧ r.pair = 1 := by
  simp only [participatingRows, restrictToFirstPair, loadDesignKeepSuffix,
    List.mem_filter, decide_eq_true_eq]
  tauto

end CGAT
